import Mathlib

/-!
Shallow embedding of `src/hivemind_exp/trainer/hivemind_grpo_trainer.py`
(class `HivemindGRPOTrainer` and its nested `PublishingGRPOTrainer`).

External collaborators (the underlying GRPO trainer's `train()`, the
dataset functions, the DHT) are modelled as oracle parameters; the
control flow, state updates and store writes of the trainer module are
translated faithfully from the Python source.  Python floats carrying
reward sums and time intervals are embedded as exact numbers (`Int`,
`Rat`): every claim under study is about control flow and exact
arithmetic on these values, not rounding.
-/

/-- Python exception classes that the trainer's handlers distinguish:
`datasets.exceptions.DatasetGenerationError` (follower loop),
`BlockingIOError` / `EOFError` (retry loop, line 305), a generic
`Exception` stand-in, and `UnboundLocalError` (raised by `del trainer` /
`trainer.push_to_hub` when the stage loop ran zero iterations). -/
inductive PyExc where
  | datasetGenerationError
  | blockingIOError
  | eofError
  | otherError
  | unboundLocalError
  deriving DecidableEq, Repr

/-- `MAX_TRAIN_FAILS = 5` (line 27). -/
def MAX_TRAIN_FAILS : Nat := 5

/-- `CADENCE_OF_UPDATE_STEPS = 4` (line 28). -/
def CADENCE_OF_UPDATE_STEPS : Nat := 4

/-! ## Stage Runner: `train_stage_and_save` (lines 299-329)

The loop `for attempt in range(MAX_TRAIN_FAILS)` runs `trainer.train()`;
on success it breaks; on `(BlockingIOError, EOFError)` or on any other
`Exception` it calls `self.cleanup()`, sleeps 5s, re-raises when
`attempt == MAX_TRAIN_FAILS - 1`, and otherwise continues.  Both
handlers have the same effect on the state we track, so the embedding
matches on the raised exception once.  `trainer.train()` is the opaque
training operation: it is an oracle `train : Nat → Except PyExc α`
giving each attempt's outcome (`α` = the attempt's metrics). -/

/-- Observable outcome of one `train_stage_and_save` call: the returned
or raised value (`Except.ok none` models falling through with
`train_result is None`, which returns after logging, line 329),
the number of `self.cleanup()` calls made by the retry loop, and the
number of `trainer.train()` attempts made. -/
structure RetryResult (α : Type) where
  result : Except PyExc (Option α)
  cleanups : Nat
  attempts : Nat
  deriving Repr

/-- The retry loop of `train_stage_and_save`, from loop index `attempt`
with `cleanups` cleanup calls already made. -/
def trainAttemptsFrom (train : Nat → Except PyExc α) (maxFails : Nat) :
    Nat → Nat → RetryResult α
  | attempt, cleanups =>
    if attempt < maxFails then
      match train attempt with
      | Except.ok v => ⟨Except.ok (some v), cleanups, attempt + 1⟩
      | Except.error e =>
        if attempt = maxFails - 1 then
          ⟨Except.error e, cleanups + 1, attempt + 1⟩
        else
          trainAttemptsFrom train maxFails (attempt + 1) (cleanups + 1)
    else
      ⟨Except.ok none, cleanups, attempt⟩
  termination_by attempt _ => maxFails - attempt

/-- `train_stage_and_save`'s retry driver (lines 300-329), starting at
attempt 0 with no cleanups performed. -/
def train_stage_and_save (train : Nat → Except PyExc α) (maxFails : Nat) :
    RetryResult α :=
  trainAttemptsFrom train maxFails 0 0

theorem trainAttemptsFrom_success (train : Nat → Except PyExc α)
    (maxFails k : Nat) (v : α) (hk : k < maxFails) (hkv : train k = Except.ok v) :
    ∀ d attempt cleanups, attempt + d = k →
      (∀ i, attempt ≤ i → i < k → ∃ e, train i = Except.error e) →
      trainAttemptsFrom train maxFails attempt cleanups =
        ⟨Except.ok (some v), cleanups + d, k + 1⟩ := by
  intro d
  induction d with
  | zero =>
    intro attempt cleanups hak _
    have hak' : attempt = k := by omega
    subst hak'
    rw [trainAttemptsFrom]
    simp [hk, hkv]
  | succ d ih =>
    intro attempt cleanups hak hfail
    have hlt : attempt < maxFails := by omega
    obtain ⟨e, he⟩ := hfail attempt (Nat.le_refl _) (by omega)
    have hne : ¬ attempt = maxFails - 1 := by omega
    rw [trainAttemptsFrom]
    simp only [hlt, if_pos, he, hne, if_neg, not_false_iff]
    rw [ih (attempt + 1) (cleanups + 1) (by omega)
      (fun i hi hik => hfail i (by omega) hik)]
    congr 1
    omega

theorem trainAttemptsFrom_allfail (train : Nat → Except PyExc α)
    (maxFails : Nat) (e : PyExc) (hlast : train (maxFails - 1) = Except.error e) :
    ∀ d attempt cleanups, attempt + d + 1 = maxFails →
      (∀ i, attempt ≤ i → i < maxFails → ∃ e2, train i = Except.error e2) →
      trainAttemptsFrom train maxFails attempt cleanups =
        ⟨Except.error e, cleanups + d + 1, maxFails⟩ := by
  intro d
  induction d with
  | zero =>
    intro attempt cleanups hak _
    have hlt : attempt < maxFails := by omega
    have hae : attempt = maxFails - 1 := by omega
    subst hae
    rw [trainAttemptsFrom]
    simp only [hlt, if_pos, hlast, if_pos rfl]
    congr 1
  | succ d ih =>
    intro attempt cleanups hak hfail
    have hlt : attempt < maxFails := by omega
    obtain ⟨e2, he2⟩ := hfail attempt (Nat.le_refl _) hlt
    have hne : ¬ attempt = maxFails - 1 := by omega
    rw [trainAttemptsFrom]
    simp only [hlt, if_pos, he2, hne, if_neg, not_false_iff]
    rw [ih (attempt + 1) (cleanups + 1) (by omega)
      (fun i hi hik => hfail i (by omega) hik)]
    congr 1
    omega

/-- C2: for every sequence of training attempts, the bounded retry
driver of `train_stage_and_save` makes at most `maxFails` attempts;
when the first success is attempt `k` (0-indexed) within the budget,
the result is that attempt's metrics, exactly `k + 1` attempts are made
and `cleanup` runs exactly `k` times (once per failed attempt); when
every attempt in the budget fails, the final attempt's exception is
re-raised, `maxFails` attempts are made and `cleanup` runs once per
failed attempt, i.e. `maxFails` times. -/
theorem train_retry_correct (train : Nat → Except PyExc Nat) (maxFails : Nat)
    (hpos : 0 < maxFails) :
    (∀ k v, k < maxFails → (∀ i, i < k → ∃ e, train i = Except.error e) →
      train k = Except.ok v →
      train_stage_and_save train maxFails = ⟨Except.ok (some v), k, k + 1⟩)
  ∧ (∀ e, (∀ i, i < maxFails → ∃ e2, train i = Except.error e2) →
      train (maxFails - 1) = Except.error e →
      train_stage_and_save train maxFails = ⟨Except.error e, maxFails, maxFails⟩) := by
  constructor
  · intro k v hk hfail hkv
    have := trainAttemptsFrom_success train maxFails k v hk hkv k 0 0
      (by omega) (fun i _ hik => hfail i hik)
    simpa [train_stage_and_save] using this
  · intro e hfail hlast
    have := trainAttemptsFrom_allfail train maxFails e hlast (maxFails - 1) 0 0
      (by omega) (fun i _ hi => hfail i hi)
    rw [train_stage_and_save, this]
    congr 1
    omega

/-- Witness for C2, the spec's scenario with `MAX_TRAIN_FAILS = 3`:
attempts 1 and 2 (indices 0 and 1) fail with a transient-store error,
attempt 3 (index 2) succeeds with metrics `42`; the final result is
attempt 3's metrics and cleanup is invoked exactly twice. -/
theorem train_retry_correct_witness :
    train_stage_and_save
        (fun i => if i < 2 then Except.error PyExc.blockingIOError else Except.ok 42) 3 =
      ⟨Except.ok (some 42), 2, 3⟩ :=
  (train_retry_correct _ 3 (by decide)).1 2 42 (by decide)
    (fun i hi => ⟨PyExc.blockingIOError, if_pos hi⟩) rfl

/-! ## Publisher cadence (`compute_loss`, line 77) -/

/-- The cadence gate of `compute_loss` line 77,
`self.state.global_step % CADENCE_OF_UPDATE_STEPS == 0`, generalised
over the cadence constant. -/
def publishFires (cadence step : Nat) : Bool := step % cadence == 0

/-- The `global_step` values seen over a run of `S` training steps,
`1, 2, ..., S` (the step counter itself lives in the external GRPO
trainer; a run of `S` steps presents `S` successive counter values). -/
def runSteps (S : Nat) : List Nat := (List.range S).map (· + 1)

/-- C9: over a run of `S` training steps, the Publisher gate
(`step % N == 0`, line 77) fires exactly `S / N` times. -/
theorem publisher_cadence_count (N S : Nat) (_hN : 0 < N) :
    (runSteps S).countP (publishFires N) = S / N := by
  induction S with
  | zero => simp [runSteps]
  | succ S ih =>
    have hsplit : runSteps (S + 1) = runSteps S ++ [S + 1] := by
      simp [runSteps, List.range_succ]
    rw [hsplit, List.countP_append, ih, Nat.succ_div]
    have hmod : (publishFires N (S + 1) = true) ↔ N ∣ S + 1 := by
      simp only [publishFires, beq_iff_eq]
      exact Nat.dvd_iff_mod_eq_zero.symm
    by_cases hd : N ∣ S + 1
    · simp [List.countP_cons, hmod.mpr hd, hd]
    · have : ¬ publishFires N (S + 1) = true := fun h => hd (hmod.mp h)
      simp [List.countP_cons, this, hd]

/-- Witness for C9 at the source's cadence `N = 4` over `S = 9` steps:
the gate fires exactly `9 / 4 = 2` times (at steps 4 and 8). -/
theorem publisher_cadence_count_witness :
    (runSteps 9).countP (publishFires 4) = 9 / 4 :=
  publisher_cadence_count 4 9 (by decide)

/-! ## The Publisher: `PublishingGRPOTrainer.compute_loss` (lines 72-112)
and `publish_leaderboard` (lines 52-70)

`compute_loss` first runs the superclass loss (opaque, not modelled),
then: on steps where `global_step % CADENCE_OF_UPDATE_STEPS == 0`, if
`node.outputs` exists, is truthy and has a `"question"` key, it stores
`(time, outputs)` to the DHT under the node-outputs key with subkey
`md5(question)`, mirrors it into the node's local stage-output cache,
adds `sum(node.rewards)` to `stage_rewards` when `node.rewards` is a
list/tuple (warning otherwise), and stores the running `stage_rewards`
under the rewards key; otherwise it logs a warning and skips.  Finally
(outside the cadence gate) it calls `publish_leaderboard` whenever
`node.is_coordinator`.  The MD5 hex digest is an opaque oracle
`md5hex`; wall-clock timestamps are not modelled. -/

/-- The fields of `HivemindNode` read or written by this module.
`outputs` is `none` when the attribute is absent or `None`;
`rewards` is `none` when the attribute is absent or not a list/tuple.
`stage_outputs` is the local cache written by `put_stage_outputs`. -/
structure HivemindNode where
  key : String
  round_num : Nat
  stage_num : Nat
  is_coordinator : Bool
  outputs : Option (List (String × String))
  rewards : Option (List Int)
  stage_outputs : List ((Nat × Nat × String) × List (String × String))
  deriving DecidableEq, Repr

/-- A write against the DHT issued by this module: node outputs
(key/subkey), a reward total, a leaderboard, or the round/stage
pointer (`ROUND_STAGE_NUMBER_KEY`). -/
inductive DhtWrite where
  | outputsW (nodeKey subkey : String) (outs : List (String × String))
  | rewardsW (round stage : Nat) (subkey : String) (value : Int)
  | leaderboardW (round stage : Nat) (board : List (String × Int))
  | pointerW (round stage : Nat)
  deriving DecidableEq, Repr

/-- `stage_rewards = 0.0` at construction (line 49). -/
def initial_stage_rewards : Int := 0

/-- Code-point lexicographic comparison of character lists: the
comparison Python applies to `str` values. -/
def charListLe : List Char → List Char → Bool
  | [], _ => true
  | _ :: _, [] => false
  | a :: as, b :: bs =>
    if a.toNat < b.toNat then true
    else if b.toNat < a.toNat then false
    else charListLe as bs

/-- Python's `str` comparison `a <= b` (lexicographic by code point). -/
def strLe (a b : String) : Bool := charListLe a.data b.data

/-- The sort order of line 61: Python sorts ascending by the tuple
`(reward, node_key)` and reverses, i.e. the output is descending by
reward with ties broken by node key descending.  `lbLe a b` holds when
`a` may appear before `b` in the published leaderboard. -/
def lbLe (a b : String × Int) : Bool :=
  decide (b.2 < a.2) || (decide (b.2 = a.2) && strLe b.1 a.1)

/-- The ranked leaderboard built from the reward mapping's entries. -/
def leaderboardOf (currRewards : List (String × Int)) : List (String × Int) :=
  currRewards.mergeSort lbLe

/-- `publish_leaderboard` (lines 52-70): reads the reward subkey
mapping for `(r, s)` (oracle argument `currRewards`; `none` = key
absent); if it is absent or empty, logs and writes nothing, otherwise
stores the ranked list under the leaderboard key.  Returns the DHT
writes performed. -/
def publish_leaderboard (r s : Nat) (currRewards : Option (List (String × Int))) :
    List DhtWrite :=
  match currRewards with
  | none => []
  | some l => if l = [] then [] else [DhtWrite.leaderboardW r s (leaderboardOf l)]

/-- Everything observable about one `compute_loss` call (besides the
opaque loss value): the node afterwards, the new `stage_rewards`
accumulator, the DHT writes in order, whether each warning branch was
taken, and whether `publish_leaderboard` was invoked. -/
structure ComputeLossResult where
  node : HivemindNode
  stage_rewards : Int
  writes : List DhtWrite
  warnedOutputs : Bool
  warnedRewards : Bool
  leaderboardInvoked : Bool
  deriving DecidableEq, Repr

/-- The cadence-gated outputs/rewards publishing block of
`compute_loss` (lines 77-107): fires only when
`global_step % CADENCE_OF_UPDATE_STEPS == 0`, requires `node.outputs`
to be present, truthy and to contain `"question"`, stores the outputs
(subkey = `md5hex question`), mirrors them into the node's local stage
cache, adds `sum(node.rewards)` to the running total when
`node.rewards` is a list/tuple (warns otherwise), and stores the
running total under the rewards key. -/
def publishOutputsRewards (md5hex : String → String) (node : HivemindNode)
    (stage_rewards : Int) (global_step : Nat) : ComputeLossResult :=
  if global_step % CADENCE_OF_UPDATE_STEPS = 0 then
    match node.outputs with
    | some outs =>
      match outs.lookup "question" with
      | some question =>
        let q_hash := md5hex question
        let node' := { node with
          stage_outputs := node.stage_outputs ++
            [((node.round_num, node.stage_num, q_hash), outs)] }
        let newRewards := match node.rewards with
          | some rs => stage_rewards + rs.sum
          | none => stage_rewards
        { node := node', stage_rewards := newRewards,
          writes := [DhtWrite.outputsW node.key q_hash outs,
            DhtWrite.rewardsW node.round_num node.stage_num node.key newRewards],
          warnedOutputs := false, warnedRewards := node.rewards.isNone,
          leaderboardInvoked := false }
      | none =>
        { node := node, stage_rewards := stage_rewards, writes := [],
          warnedOutputs := true, warnedRewards := false,
          leaderboardInvoked := false }
    | none =>
      { node := node, stage_rewards := stage_rewards, writes := [],
        warnedOutputs := true, warnedRewards := false,
        leaderboardInvoked := false }
  else
    { node := node, stage_rewards := stage_rewards, writes := [],
      warnedOutputs := false, warnedRewards := false,
      leaderboardInvoked := false }

/-- The DHT-publishing part of `compute_loss` (lines 72-112): the
cadence-gated publish block, then — outside the cadence gate —
`publish_leaderboard` whenever the node is the coordinator.
`currRewards` is the reward mapping `publish_leaderboard` would read
from the DHT.  Never raises: every branch returns. -/
def compute_loss (md5hex : String → String) (node : HivemindNode)
    (stage_rewards : Int) (global_step : Nat)
    (currRewards : Option (List (String × Int))) : ComputeLossResult :=
  let part := publishOutputsRewards md5hex node stage_rewards global_step
  if node.is_coordinator then
    { part with
      writes := part.writes ++
        publish_leaderboard node.round_num node.stage_num currRewards,
      leaderboardInvoked := true }
  else
    part

/-- `true` for the Publisher's own store writes (node outputs and
reward totals), `false` for leaderboard or pointer writes. -/
def isPublishWrite : DhtWrite → Bool
  | DhtWrite.outputsW _ _ _ => true
  | DhtWrite.rewardsW _ _ _ _ => true
  | _ => false

theorem charListLe_trans : ∀ xs ys zs : List Char, charListLe xs ys = true →
    charListLe ys zs = true → charListLe xs zs = true := by
  intro xs
  induction xs with
  | nil => intro ys zs _ _; rfl
  | cons a as ih =>
    intro ys zs hxy hyz
    cases ys with
    | nil => simp [charListLe] at hxy
    | cons b bs =>
      cases zs with
      | nil => simp [charListLe] at hyz
      | cons c cs =>
        simp only [charListLe] at hxy hyz ⊢
        rcases Nat.lt_trichotomy a.toNat b.toNat with h1 | h1 | h1 <;>
          rcases Nat.lt_trichotomy b.toNat c.toNat with h2 | h2 | h2
        · simp [show a.toNat < c.toNat by omega]
        · simp [show a.toNat < c.toNat by omega]
        · simp [show ¬ b.toNat < c.toNat by omega, h2] at hyz
        · simp [show a.toNat < c.toNat by omega]
        · have h3 : ¬ a.toNat < b.toNat := by omega
          have h4 : ¬ b.toNat < a.toNat := by omega
          have h5 : ¬ b.toNat < c.toNat := by omega
          have h6 : ¬ c.toNat < b.toNat := by omega
          rw [if_neg h3, if_neg h4] at hxy
          rw [if_neg h5, if_neg h6] at hyz
          rw [if_neg (show ¬ a.toNat < c.toNat by omega),
            if_neg (show ¬ c.toNat < a.toNat by omega)]
          exact ih bs cs hxy hyz
        · simp [show ¬ b.toNat < c.toNat by omega, h2] at hyz
        · simp [show ¬ a.toNat < b.toNat by omega, h1] at hxy
        · simp [show ¬ a.toNat < b.toNat by omega, h1] at hxy
        · simp [show ¬ a.toNat < b.toNat by omega, h1] at hxy

theorem charListLe_total : ∀ xs ys : List Char,
    (charListLe xs ys || charListLe ys xs) = true := by
  intro xs
  induction xs with
  | nil => intro ys; simp [charListLe]
  | cons a as ih =>
    intro ys
    cases ys with
    | nil => simp [charListLe]
    | cons b bs =>
      simp only [charListLe]
      rcases Nat.lt_trichotomy a.toNat b.toNat with h | h | h
      · simp [h]
      · have h1 : ¬ a.toNat < b.toNat := by omega
        have h2 : ¬ b.toNat < a.toNat := by omega
        simpa [h1, h2] using ih bs
      · simp [h, show ¬ a.toNat < b.toNat by omega]

theorem charListLe_antisymm : ∀ xs ys : List Char, charListLe xs ys = true →
    charListLe ys xs = true → xs = ys := by
  intro xs
  induction xs with
  | nil =>
    intro ys _ h2
    cases ys with
    | nil => rfl
    | cons b bs => simp [charListLe] at h2
  | cons a as ih =>
    intro ys h1 h2
    cases ys with
    | nil => simp [charListLe] at h1
    | cons b bs =>
      simp only [charListLe] at h1 h2
      rcases Nat.lt_trichotomy a.toNat b.toNat with h | h | h
      · simp [show ¬ b.toNat < a.toNat by omega, h] at h2
      · have h3 : ¬ a.toNat < b.toNat := by omega
        have h4 : ¬ b.toNat < a.toNat := by omega
        rw [if_neg h3, if_neg h4] at h1
        rw [if_neg h4, if_neg h3] at h2
        have hab : a = b := Char.ext (UInt32.toNat.inj h)
        rw [hab, ih bs h1 h2]
      · simp [show ¬ a.toNat < b.toNat by omega, h] at h1

theorem strLe_trans (a b c : String) (h1 : strLe a b = true)
    (h2 : strLe b c = true) : strLe a c = true :=
  charListLe_trans a.data b.data c.data h1 h2

theorem strLe_total (a b : String) : (strLe a b || strLe b a) = true :=
  charListLe_total a.data b.data

theorem strLe_antisymm (a b : String) (h1 : strLe a b = true)
    (h2 : strLe b a = true) : a = b := by
  cases a
  cases b
  exact congrArg String.mk (charListLe_antisymm _ _ h1 h2)

theorem lbLe_trans (a b c : String × Int) (hab : lbLe a b = true)
    (hbc : lbLe b c = true) : lbLe a c = true := by
  simp only [lbLe, Bool.or_eq_true, Bool.and_eq_true, decide_eq_true_eq] at hab hbc ⊢
  rcases hab with h1 | ⟨h1, h1'⟩ <;> rcases hbc with h2 | ⟨h2, h2'⟩
  · exact Or.inl (h2.trans h1)
  · exact Or.inl (by omega)
  · exact Or.inl (by omega)
  · exact Or.inr ⟨by omega, strLe_trans _ _ _ h2' h1'⟩

theorem lbLe_total (a b : String × Int) : (lbLe a b || lbLe b a) = true := by
  simp only [lbLe, Bool.or_eq_true, Bool.and_eq_true, decide_eq_true_eq]
  rcases lt_trichotomy a.2 b.2 with h | h | h
  · exact Or.inr (Or.inl h)
  · rcases Bool.or_eq_true _ _ |>.mp (strLe_total a.1 b.1) with hs | hs
    · exact Or.inr (Or.inr ⟨h, hs⟩)
    · exact Or.inl (Or.inr ⟨h.symm, hs⟩)
  · exact Or.inl (Or.inl h)

instance : IsAntisymm (String × Int) (fun a b => lbLe a b = true) where
  antisymm a b hab hba := by
    simp only [lbLe, Bool.or_eq_true, Bool.and_eq_true, decide_eq_true_eq] at hab hba
    rcases hab with h1 | ⟨h1, h1'⟩ <;> rcases hba with h2 | ⟨h2, h2'⟩
    · omega
    · omega
    · omega
    · exact Prod.ext (strLe_antisymm _ _ h2' h1') (by omega)

/-- C7: for every non-empty reward mapping `R` at a fixed
`(round, stage)`, `publish_leaderboard` stores exactly one leaderboard,
whose entries are a permutation of `R` sorted descending by reward with
ties broken by node key descending (`lbLe`); the ranking is the same
for any enumeration order of the same mapping (determinism /
idempotence); and when the mapping is absent or empty nothing is
published. -/
theorem leaderboard_correct (r s : Nat) (R : List (String × Int)) (hne : R ≠ []) :
    publish_leaderboard r s (some R) = [DhtWrite.leaderboardW r s (leaderboardOf R)]
  ∧ (leaderboardOf R).Perm R
  ∧ List.Pairwise (fun a b => lbLe a b = true) (leaderboardOf R)
  ∧ (∀ R2, R2.Perm R → leaderboardOf R2 = leaderboardOf R)
  ∧ publish_leaderboard r s none = []
  ∧ publish_leaderboard r s (some []) = [] := by
  refine ⟨by simp [publish_leaderboard, hne], List.mergeSort_perm R lbLe, ?_, ?_, rfl, rfl⟩
  · exact List.sorted_mergeSort lbLe_trans lbLe_total R
  · intro R2 hperm
    exact List.eq_of_perm_of_sorted
      ((List.mergeSort_perm R2 lbLe).trans (hperm.trans (List.mergeSort_perm R lbLe).symm))
      (List.sorted_mergeSort lbLe_trans lbLe_total R2)
      (List.sorted_mergeSort lbLe_trans lbLe_total R)

/-- Witness for C7: three nodes with a reward tie between `"b"` and
`"c"`; the published ranking is by reward descending, tie broken by
node key descending, and enumerating the mapping in another order
publishes the identical ranking. -/
theorem leaderboard_correct_witness :
    publish_leaderboard 7 1 (some [("a", 1), ("c", 2), ("b", 2)]) =
      [DhtWrite.leaderboardW 7 1 [("c", 2), ("b", 2), ("a", 1)]]
  ∧ leaderboardOf [("b", 2), ("a", 1), ("c", 2)] =
      leaderboardOf [("a", 1), ("c", 2), ("b", 2)] := by
  have h := leaderboard_correct 7 1 [("a", 1), ("c", 2), ("b", 2)] (by decide)
  have hval : leaderboardOf [("a", (1 : Int)), ("c", 2), ("b", 2)] =
      [("c", 2), ("b", 2), ("a", 1)] :=
    List.eq_of_perm_of_sorted (h.2.1.trans (by decide)) h.2.2.1 (by decide)
  exact ⟨by rw [h.1, hval], h.2.2.2.1 _ (by decide)⟩

theorem publishOutputsRewards_fields (md5hex : String → String)
    (node : HivemindNode) (sr : Int) (step : Nat) :
    (publishOutputsRewards md5hex node sr step).leaderboardInvoked = false
  ∧ (publishOutputsRewards md5hex node sr step).node.round_num = node.round_num
  ∧ (publishOutputsRewards md5hex node sr step).node.stage_num = node.stage_num := by
  by_cases hstep : step % CADENCE_OF_UPDATE_STEPS = 0 <;>
    rcases ho : node.outputs with _ | outs
  · simp [publishOutputsRewards, hstep, ho]
  · rcases hq : outs.lookup "question" with _ | q <;>
      simp [publishOutputsRewards, hstep, ho, hq]
  · simp [publishOutputsRewards, hstep, ho]
  · simp [publishOutputsRewards, hstep, ho]

/-- The amount the cadence-gated publish block adds to the running
`stage_rewards` total: `sum(node.rewards)` on a firing with
publishable outputs and a list-shaped reward attribute, `0` in every
other case. -/
def rewardDelta (node : HivemindNode) (global_step : Nat) : Int :=
  if global_step % CADENCE_OF_UPDATE_STEPS = 0 then
    match node.outputs with
    | some outs =>
      match outs.lookup "question" with
      | some _ => (node.rewards.getD []).sum
      | none => 0
    | none => 0
  else 0

theorem publishOutputsRewards_stage_rewards (md5hex : String → String)
    (node : HivemindNode) (sr : Int) (step : Nat) :
    (publishOutputsRewards md5hex node sr step).stage_rewards =
      sr + rewardDelta node step := by
  by_cases hstep : step % CADENCE_OF_UPDATE_STEPS = 0
  · rcases ho : node.outputs with _ | outs
    · simp [publishOutputsRewards, rewardDelta, hstep, ho]
    · rcases hq : outs.lookup "question" with _ | q
      · simp [publishOutputsRewards, rewardDelta, hstep, ho, hq]
      · rcases hr : node.rewards with _ | rs <;>
          simp [publishOutputsRewards, rewardDelta, hstep, ho, hq, hr]
  · simp [publishOutputsRewards, rewardDelta, hstep]

theorem compute_loss_stage_rewards (md5hex : String → String)
    (node : HivemindNode) (sr : Int) (step : Nat)
    (cr : Option (List (String × Int))) :
    (compute_loss md5hex node sr step cr).stage_rewards =
      sr + rewardDelta node step := by
  unfold compute_loss
  by_cases h : node.is_coordinator <;>
    simp [h, publishOutputsRewards_stage_rewards]

theorem compute_loss_writes (md5hex : String → String) (node : HivemindNode)
    (sr : Int) (step : Nat) (cr : Option (List (String × Int))) :
    (compute_loss md5hex node sr step cr).writes =
      (publishOutputsRewards md5hex node sr step).writes ++
        (if node.is_coordinator then
          publish_leaderboard node.round_num node.stage_num cr
        else []) := by
  unfold compute_loss
  by_cases h : node.is_coordinator <;> simp [h]

theorem publish_leaderboard_no_publish_writes (r s : Nat)
    (cr : Option (List (String × Int))) :
    (publish_leaderboard r s cr).countP isPublishWrite = 0 := by
  cases cr with
  | none => rfl
  | some l =>
    by_cases hl : l = [] <;> simp [publish_leaderboard, hl, isPublishWrite]

/-- C8 (amended): the Leaderboard Aggregator is invoked exactly when
the node holds the coordinator role — and then at the end of every
`compute_loss` call, i.e. on every training step, not only on the
cadence-gated Publisher firings. -/
theorem leaderboard_invoked_iff_coordinator (md5hex : String → String)
    (node : HivemindNode) (sr : Int) (step : Nat)
    (cr : Option (List (String × Int))) :
    (compute_loss md5hex node sr step cr).leaderboardInvoked =
      node.is_coordinator := by
  unfold compute_loss
  by_cases h : node.is_coordinator <;>
    simp [h, (publishOutputsRewards_fields md5hex node sr step).1]

/-- Node for the C8 counterexample: the coordinator at round 2,
stage 1, with valid outputs and rewards. -/
def nodeC8 : HivemindNode :=
  ⟨"coord", 2, 1, true, some [("question", "q")], some [1], []⟩

/-- C8 counterexample: at `global_step = 1` the cadence gate does not
fire, so this is not a Publisher cycle — no outputs or rewards are
written — yet the coordinator still invokes the Leaderboard Aggregator
and a leaderboard write is issued.  The aggregator is called on every
step, not only after Publisher cycles. -/
theorem leaderboard_cadence_counterexample :
    ¬ (1 % CADENCE_OF_UPDATE_STEPS = 0)
  ∧ (compute_loss (fun q => q) nodeC8 0 1 (some [("n1", 5)])).writes.countP
      isPublishWrite = 0
  ∧ (compute_loss (fun q => q) nodeC8 0 1 (some [("n1", 5)])).leaderboardInvoked
      = true
  ∧ (compute_loss (fun q => q) nodeC8 0 1 (some [("n1", 5)])).writes =
      [DhtWrite.leaderboardW 2 1 (leaderboardOf [("n1", 5)])] :=
  ⟨by decide, rfl, rfl, rfl⟩

theorem publishOutputsRewards_no_question (md5hex : String → String)
    (node : HivemindNode) (sr : Int) (step : Nat)
    (hfire : step % CADENCE_OF_UPDATE_STEPS = 0)
    (h : node.outputs.bind (fun outs => outs.lookup "question") = none) :
    publishOutputsRewards md5hex node sr step = ⟨node, sr, [], true, false, false⟩ := by
  rcases ho : node.outputs with _ | outs
  · simp [publishOutputsRewards, hfire, ho]
  · have hq : outs.lookup "question" = none := by
      rw [ho] at h
      simpa using h
    simp [publishOutputsRewards, hfire, ho, hq]

theorem publishOutputsRewards_rewards_missing (md5hex : String → String)
    (node : HivemindNode) (sr : Int) (step : Nat)
    (outs : List (String × String)) (q : String)
    (hfire : step % CADENCE_OF_UPDATE_STEPS = 0)
    (ho : node.outputs = some outs) (hq : outs.lookup "question" = some q)
    (hr : node.rewards = none) :
    publishOutputsRewards md5hex node sr step =
      ⟨{ node with stage_outputs := node.stage_outputs ++
          [((node.round_num, node.stage_num, md5hex q), outs)] },
        sr,
        [DhtWrite.outputsW node.key (md5hex q) outs,
          DhtWrite.rewardsW node.round_num node.stage_num node.key sr],
        false, true, false⟩ := by
  simp [publishOutputsRewards, hfire, ho, hq, hr]

/-- C3 (amended): on a Publisher firing, when `node.outputs` is absent
or has no `"question"` field the whole publish cycle is skipped with a
warning — no outputs write, no rewards write, `stage_rewards`
unchanged, and the step does not fail.  But a missing (non-list)
`node.rewards` does NOT skip the cycle: the outputs write and the
rewards write both still happen — the rewards write carrying the
unchanged running total — with only the accumulation skipped and a
warning logged. -/
theorem publisher_missing_state (md5hex : String → String)
    (node : HivemindNode) (sr : Int) (step : Nat)
    (cr : Option (List (String × Int)))
    (hfire : step % CADENCE_OF_UPDATE_STEPS = 0) :
    (node.outputs.bind (fun outs => outs.lookup "question") = none →
      (compute_loss md5hex node sr step cr).writes.countP isPublishWrite = 0
      ∧ (compute_loss md5hex node sr step cr).warnedOutputs = true
      ∧ (compute_loss md5hex node sr step cr).stage_rewards = sr)
  ∧ (∀ outs q, node.outputs = some outs → outs.lookup "question" = some q →
      node.rewards = none →
      (compute_loss md5hex node sr step cr).writes =
        [DhtWrite.outputsW node.key (md5hex q) outs,
          DhtWrite.rewardsW node.round_num node.stage_num node.key sr] ++
        (if node.is_coordinator then
          publish_leaderboard node.round_num node.stage_num cr
        else [])
      ∧ (compute_loss md5hex node sr step cr).warnedRewards = true
      ∧ (compute_loss md5hex node sr step cr).stage_rewards = sr) := by
  constructor
  · intro h
    have hpart := publishOutputsRewards_no_question md5hex node sr step hfire h
    refine ⟨?_, ?_, ?_⟩
    · rw [compute_loss_writes, List.countP_append, hpart]
      by_cases hc : node.is_coordinator <;>
        simp [hc, publish_leaderboard_no_publish_writes]
    · unfold compute_loss
      by_cases hc : node.is_coordinator <;> simp [hc, hpart]
    · unfold compute_loss
      by_cases hc : node.is_coordinator <;> simp [hc, hpart]
  · intro outs q ho hq hr
    have hpart := publishOutputsRewards_rewards_missing md5hex node sr step
      outs q hfire ho hq hr
    refine ⟨?_, ?_, ?_⟩
    · rw [compute_loss_writes, hpart]
    · unfold compute_loss
      by_cases hc : node.is_coordinator <;> simp [hc, hpart]
    · unfold compute_loss
      by_cases hc : node.is_coordinator <;> simp [hc, hpart]

/-- Node for the C3 counterexample and scenario: outputs present with
a `"question"` field, `rewards` attribute absent / not a list. -/
def nodeC3 : HivemindNode :=
  ⟨"nk", 3, 1, false, some [("question", "q1")], none, []⟩

/-- C3 counterexample: on a cadence firing with `node.rewards` missing
(but outputs intact), the Publisher does NOT skip the cycle: it writes
the outputs to the store and also writes the rewards key, carrying the
stale running total `0`. -/
theorem publisher_skip_counterexample :
    nodeC3.rewards = none
  ∧ 0 % CADENCE_OF_UPDATE_STEPS = 0
  ∧ (compute_loss (fun q => q) nodeC3 0 0 none).writes =
      [DhtWrite.outputsW "nk" "q1" [("question", "q1")],
        DhtWrite.rewardsW 3 1 "nk" 0]
  ∧ (compute_loss (fun q => q) nodeC3 0 0 none).writes.countP isPublishWrite = 2 :=
  ⟨rfl, rfl, rfl, rfl⟩

/-- Witness for C3 (amended), outputs-missing side: a node with no
`outputs` attribute on a firing step publishes nothing, warns, and
leaves the reward total unchanged. -/
theorem publisher_missing_state_witness :
    (compute_loss (fun q => q) ⟨"nk", 0, 0, false, none, none, []⟩ 5 4
        none).writes.countP isPublishWrite = 0
  ∧ (compute_loss (fun q => q) ⟨"nk", 0, 0, false, none, none, []⟩ 5 4
        none).warnedOutputs = true
  ∧ (compute_loss (fun q => q) ⟨"nk", 0, 0, false, none, none, []⟩ 5 4
        none).stage_rewards = 5 :=
  (publisher_missing_state (fun q => q) ⟨"nk", 0, 0, false, none, none, []⟩
    5 4 none rfl).1 rfl

/-- The running `stage_rewards` total after a sequence of training
steps, each presenting a node state and a `global_step` value, threaded
through `compute_loss` (the oracle reward mapping does not affect the
total). -/
def stageRewardsAfter (md5hex : String → String)
    (inputs : List (HivemindNode × Nat)) (sr : Int) : Int :=
  inputs.foldl (fun acc p => (compute_loss md5hex p.1 acc p.2 none).stage_rewards) sr

theorem rewardDelta_nonneg (node : HivemindNode) (step : Nat)
    (h : ∀ rs, node.rewards = some rs → 0 ≤ rs.sum) :
    0 ≤ rewardDelta node step := by
  unfold rewardDelta
  split
  · rcases ho : node.outputs with _ | outs
    · simp
    · rcases hq : outs.lookup "question" with _ | q
      · simp [hq]
      · simp only [hq]
        rcases hr : node.rewards with _ | rs
        · simp
        · simpa using h rs hr
  · exact le_refl 0

/-- C4 (amended): the running stage-reward total is `0` at
construction of a `PublishingGRPOTrainer` and every `compute_loss` call
changes it by exactly `rewardDelta` — the sum of the presented reward
list on an output-publishing cadence firing, `0` otherwise.  It is
therefore non-decreasing across every sequence of firings in which
each presented reward list has a non-negative sum (in particular for
non-negative rewards); a reward list with negative sum strictly
decreases it, so the unconditional monotonicity claim fails (see the
counterexample).  It is reset only by constructing a new trainer. -/
theorem stage_rewards_update (md5hex : String → String) :
    initial_stage_rewards = 0
  ∧ (∀ (node : HivemindNode) (sr : Int) (step : Nat)
      (cr : Option (List (String × Int))),
      (compute_loss md5hex node sr step cr).stage_rewards =
        sr + rewardDelta node step)
  ∧ (∀ (inputs : List (HivemindNode × Nat)) (sr : Int),
      (∀ p ∈ inputs, ∀ rs, p.1.rewards = some rs → 0 ≤ rs.sum) →
      sr ≤ stageRewardsAfter md5hex inputs sr) := by
  refine ⟨rfl, fun node sr step cr => compute_loss_stage_rewards md5hex node sr step cr, ?_⟩
  intro inputs
  induction inputs with
  | nil => intro sr _; exact le_refl sr
  | cons p ps ih =>
    intro sr h
    have hstep : sr ≤ (compute_loss md5hex p.1 sr p.2 none).stage_rewards := by
      rw [compute_loss_stage_rewards]
      have := rewardDelta_nonneg p.1 p.2 (h p (List.mem_cons_self p ps))
      omega
    have htail := ih ((compute_loss md5hex p.1 sr p.2 none).stage_rewards)
      (fun q hq rs hrs => h q (List.mem_cons_of_mem p hq) rs hrs)
    calc sr ≤ (compute_loss md5hex p.1 sr p.2 none).stage_rewards := hstep
      _ ≤ _ := htail

/-- Node for the C4 counterexample: valid outputs, a reward list
summing to `-1`. -/
def nodeC4 : HivemindNode :=
  ⟨"nk", 0, 0, false, some [("question", "q")], some [-1], []⟩

/-- C4 counterexample: `stage_rewards` starts at `0`; after a single
cadence-gated firing in which the node presents the reward list
`[-1]`, the running total is `-1 < 0`.  The total is NOT monotonically
non-decreasing for every sequence of reward lists the node may
present. -/
theorem stage_rewards_monotone_counterexample :
    initial_stage_rewards = 0
  ∧ (compute_loss (fun q => q) nodeC4 initial_stage_rewards 0 none).stage_rewards = -1
  ∧ (compute_loss (fun q => q) nodeC4 initial_stage_rewards 0 none).stage_rewards
      < initial_stage_rewards :=
  ⟨rfl, rfl, by decide⟩

/-- Witness for C4 (amended): two firings presenting the reward lists
`[2, 3]` and `[]` leave the total at `5 ≥ 0`, and the running total
never decreased. -/
theorem stage_rewards_update_witness :
    (0 : Int) ≤ stageRewardsAfter (fun q => q)
      [(⟨"nk", 0, 0, false, some [("question", "q")], some [2, 3], []⟩, 0),
       (⟨"nk", 0, 0, false, some [("question", "q")], some [], []⟩, 4)] 0 :=
  (stage_rewards_update (fun q => q)).2.2 _ 0 (by
    intro p hp rs hrs
    simp only [List.mem_cons, List.mem_singleton] at hp
    rcases hp with hp | hp | hp
    · subst hp
      simp only [Option.some.injEq] at hrs
      subst hrs
      decide
    · subst hp
      simp only [Option.some.injEq] at hrs
      subst hrs
      decide
    · exact absurd hp (by simp))

/-! ## The Stage Runner sequence: `train_stages` (lines 162-281)

`train_stages(round_num, start_stage, is_coordinator)` sets
`node.round_num`, then iterates `enumerate(stages[start_stage:])`:
sets `node.stage_num`, publishes the round/stage pointer when
coordinator, builds the stage dataset and runs
`train_stage_and_save`.  Any exception out of a stage body
(`datasets_fn` or the exhausted retry loop) propagates.  After the
loop: if a hub push token is configured it tries
`trainer.push_to_hub` inside `try/except Exception` (so an
`UnboundLocalError` from an unbound `trainer` is caught and logged),
then `self.cleanup()`, then the unconditional `del trainer`, which
raises `UnboundLocalError` whenever the loop ran zero iterations.
The per-stage body outcome is an oracle
`stageFail : round → stage → Option PyExc` (`none` = the stage
completed). -/

/-- A write to the node's `round_num` or `stage_num` field. -/
inductive RSWrite where
  | roundW (n : Nat)
  | stageW (n : Nat)
  deriving DecidableEq, Repr

/-- Observables of the stage loop of `train_stages` (lines 165-257). -/
structure StageLoopResult where
  rsWrites : List RSWrite
  pointerWrites : List (Nat × Nat)
  stagesStarted : List Nat
  result : Option PyExc
  deriving DecidableEq, Repr

/-- The stage loop over the given stage numbers: for each stage, write
`node.stage_num`, publish the pointer when coordinator, then run the
stage body; stop at the first exception. -/
def stageLoop (stageFail : Nat → Nat → Option PyExc) (round : Nat)
    (isCoordinator : Bool) : List Nat → StageLoopResult
  | [] => ⟨[], [], [], none⟩
  | s :: rest =>
    let ptr := if isCoordinator then [(round, s)] else []
    match stageFail round s with
    | some e => ⟨[RSWrite.stageW s], ptr, [s], some e⟩
    | none =>
      let r := stageLoop stageFail round isCoordinator rest
      ⟨RSWrite.stageW s :: r.rsWrites, ptr ++ r.pointerWrites,
        s :: r.stagesStarted, r.result⟩

/-- Observables of one `train_stages` call. -/
structure TrainStagesResult where
  rsWrites : List RSWrite
  pointerWrites : List (Nat × Nat)
  stagesStarted : List Nat
  result : Option PyExc
  pushErrorCaught : Bool
  deriving DecidableEq, Repr

/-- `train_stages` (lines 162-281).  `numStages` is
`len(stage_data.stages)`; `pushToHub` is whether
`config.push_to_hub_token` is configured. -/
def train_stages (numStages : Nat) (stageFail : Nat → Nat → Option PyExc)
    (round start : Nat) (isCoordinator pushToHub : Bool) : TrainStagesResult :=
  let r := stageLoop stageFail round isCoordinator
    (List.range' start (numStages - start))
  let rsWrites := RSWrite.roundW round :: r.rsWrites
  match r.result with
  | some e => ⟨rsWrites, r.pointerWrites, r.stagesStarted, some e, false⟩
  | none =>
    let trainerBound := start < numStages
    let pushCaught := pushToHub && !(decide trainerBound)
    if trainerBound then
      ⟨rsWrites, r.pointerWrites, r.stagesStarted, none, pushCaught⟩
    else
      ⟨rsWrites, r.pointerWrites, r.stagesStarted,
        some PyExc.unboundLocalError, pushCaught⟩

/-- C10: calling `train_stages` with `start_stage ≥ len(stages)` runs
zero stage iterations and raises `UnboundLocalError` at the
unconditional `del trainer`; when a hub push token is configured the
`UnboundLocalError` at the `trainer.push_to_hub` call arises first but
is swallowed by that block's `except Exception`.  `train_stages` is
not total over out-of-range start stages. -/
theorem train_stages_out_of_range (numStages : Nat)
    (stageFail : Nat → Nat → Option PyExc) (round start : Nat)
    (isCoordinator pushToHub : Bool) (h : numStages ≤ start) :
    (train_stages numStages stageFail round start isCoordinator
        pushToHub).stagesStarted = []
  ∧ (train_stages numStages stageFail round start isCoordinator
        pushToHub).result = some PyExc.unboundLocalError
  ∧ (train_stages numStages stageFail round start isCoordinator
        pushToHub).pushErrorCaught = pushToHub := by
  have h0 : numStages - start = 0 := by omega
  have hnb : ¬ start < numStages := by omega
  refine ⟨?_, ?_, ?_⟩ <;>
    simp [train_stages, h0, stageLoop, List.range', hnb]

/-- Witness for C10: two stages, `start_stage = 2`, push token
configured — no stage runs, `UnboundLocalError` is raised by
`del trainer`, and the push-site error is caught. -/
theorem train_stages_out_of_range_witness :
    (train_stages 2 (fun _ _ => none) 0 2 false true).stagesStarted = []
  ∧ (train_stages 2 (fun _ _ => none) 0 2 false true).result =
      some PyExc.unboundLocalError
  ∧ (train_stages 2 (fun _ _ => none) 0 2 false true).pushErrorCaught = true :=
  train_stages_out_of_range 2 (fun _ _ => none) 0 2 false true (by decide)

/-! ## The follower loop: `follower_train` (lines 380-451)

One execution of the while-loop body.  The round/stage pointer read
(`get_round_and_stage`, which may raise or yield `None` values) is an
oracle `Fetch`; the two possible `train_stages` calls of an iteration
(the join at the observed stage and the restart from stage 0 inside
the `DatasetGenerationError` handler) use the oracles `sf1` and `sf2`
respectively.  Wall-clock logging timestamps (`fetch_log_time`,
line 385) only rate-limit log lines and are not modelled; sleep
durations are recorded.  Note the restart call sits inside the
`except` block (line 425): an exception it raises is not caught by
the sibling handler and propagates, skipping lines 436-437. -/

/-- One observation of the round/stage pointer: `failed` covers both
an exception from the fetch and `None` values (lines 394-412). -/
inductive Fetch where
  | failed
  | ok (round stage : Nat)
  deriving DecidableEq, Repr

/-- Follower-loop state carried across iterations. -/
structure FollowerState where
  done_rounds : List Nat
  check_backoff : Rat
  deriving DecidableEq, Repr

/-- Observables of one iteration of the `follower_train` loop body. -/
structure FollowerIterResult where
  state : FollowerState
  sleep : Option Rat
  joinCall : Option (Nat × Nat)
  restartCall : Option (Nat × Nat)
  raised : Option PyExc
  exited : Bool
  deriving DecidableEq, Repr

/-- One iteration of the `follower_train` while-loop (lines 389-449). -/
def follower_iter (numStages : Nat) (sf1 sf2 : Nat → Nat → Option PyExc)
    (maxRounds : Nat) (check_interval max_check_interval : Rat)
    (fetch : Fetch) (st : FollowerState) : FollowerIterResult :=
  match fetch with
  | Fetch.failed =>
    ⟨st, some check_interval, none, none, none, false⟩
  | Fetch.ok round stage =>
    if round ∈ st.done_rounds then
      ⟨⟨st.done_rounds, min (st.check_backoff * 2) max_check_interval⟩,
        some st.check_backoff, none, none, none,
        decide (maxRounds - 1 ≤ round)⟩
    else
      match (train_stages numStages sf1 round stage false false).result with
      | none =>
        ⟨⟨st.done_rounds ++ [round], check_interval⟩, none,
          some (round, stage), none, none, decide (maxRounds - 1 ≤ round)⟩
      | some PyExc.datasetGenerationError =>
        if 0 < stage then
          match (train_stages numStages sf2 round 0 false false).result with
          | none =>
            ⟨⟨st.done_rounds ++ [round], check_interval⟩, none,
              some (round, stage), some (round, 0), none,
              decide (maxRounds - 1 ≤ round)⟩
          | some e2 =>
            ⟨st, none, some (round, stage), some (round, 0), some e2, false⟩
        else
          ⟨⟨st.done_rounds ++ [round], check_interval⟩, none,
            some (round, stage), none, none, decide (maxRounds - 1 ≤ round)⟩
      | some _ =>
        ⟨⟨st.done_rounds ++ [round], check_interval⟩, none,
          some (round, stage), none, none, decide (maxRounds - 1 ≤ round)⟩

/-- A stage-body oracle that always raises
`DatasetGenerationError` (the dataset function fails). -/
def stageFailDGE : Nat → Nat → Option PyExc :=
  fun _ _ => some PyExc.datasetGenerationError

/-- C1 counterexample, the spec's own scenario taken one step further:
the follower joins round 5 at stage 2, the dataset function raises
`DatasetGenerationError`, the restart from stage 0 is attempted, and
the restart ALSO raises `DatasetGenerationError`.  The exception
propagates out of the loop and round 5 is NOT added to `done_rounds`
(lines 436-437 are skipped), contradicting the claim that every
handled-failure case — including the restart itself failing — marks
the round done. -/
theorem follower_restart_counterexample :
    (follower_iter 3 stageFailDGE stageFailDGE 10 5 300 (Fetch.ok 5 2)
        ⟨[], 5⟩).joinCall = some (5, 2)
  ∧ (follower_iter 3 stageFailDGE stageFailDGE 10 5 300 (Fetch.ok 5 2)
        ⟨[], 5⟩).restartCall = some (5, 0)
  ∧ (follower_iter 3 stageFailDGE stageFailDGE 10 5 300 (Fetch.ok 5 2)
        ⟨[], 5⟩).raised = some PyExc.datasetGenerationError
  ∧ (follower_iter 3 stageFailDGE stageFailDGE 10 5 300 (Fetch.ok 5 2)
        ⟨[], 5⟩).state.done_rounds = [] := by
  refine ⟨rfl, rfl, rfl, rfl⟩

/-- C1 (amended): for an observed round not yet in `done_rounds`:
a successful attempt marks the round done and resets backoff; a
`DatasetGenerationError` at stage > 0 triggers exactly one full
restart of the round from stage 0, and if the restart returns
normally the round is marked done; a `DatasetGenerationError` at
stage 0 is logged and the round is marked done without any retry; any
other exception from the attempt is caught and the round is likewise
marked done; BUT if the restart itself raises, the exception
propagates out of the follower loop and the round is NOT added to
`done_rounds`. -/
theorem follower_round_handling (numStages : Nat)
    (sf1 sf2 : Nat → Nat → Option PyExc) (maxRounds : Nat)
    (ci M : Rat) (r s : Nat) (st : FollowerState)
    (hnew : r ∉ st.done_rounds) :
    ((train_stages numStages sf1 r s false false).result = none →
      (follower_iter numStages sf1 sf2 maxRounds ci M (Fetch.ok r s)
          st).state = ⟨st.done_rounds ++ [r], ci⟩
      ∧ (follower_iter numStages sf1 sf2 maxRounds ci M (Fetch.ok r s)
          st).restartCall = none)
  ∧ (0 < s →
      (train_stages numStages sf1 r s false false).result =
        some PyExc.datasetGenerationError →
      (follower_iter numStages sf1 sf2 maxRounds ci M (Fetch.ok r s)
          st).joinCall = some (r, s)
      ∧ (follower_iter numStages sf1 sf2 maxRounds ci M (Fetch.ok r s)
          st).restartCall = some (r, 0)
      ∧ ((train_stages numStages sf2 r 0 false false).result = none →
          (follower_iter numStages sf1 sf2 maxRounds ci M (Fetch.ok r s)
              st).state = ⟨st.done_rounds ++ [r], ci⟩
          ∧ (follower_iter numStages sf1 sf2 maxRounds ci M (Fetch.ok r s)
              st).raised = none)
      ∧ (∀ e2, (train_stages numStages sf2 r 0 false false).result = some e2 →
          (follower_iter numStages sf1 sf2 maxRounds ci M (Fetch.ok r s)
              st).raised = some e2
          ∧ (follower_iter numStages sf1 sf2 maxRounds ci M (Fetch.ok r s)
              st).state = st))
  ∧ ((train_stages numStages sf1 r 0 false false).result =
        some PyExc.datasetGenerationError → s = 0 →
      (follower_iter numStages sf1 sf2 maxRounds ci M (Fetch.ok r s)
          st).state = ⟨st.done_rounds ++ [r], ci⟩
      ∧ (follower_iter numStages sf1 sf2 maxRounds ci M (Fetch.ok r s)
          st).restartCall = none)
  ∧ (∀ e, e ≠ PyExc.datasetGenerationError →
      (train_stages numStages sf1 r s false false).result = some e →
      (follower_iter numStages sf1 sf2 maxRounds ci M (Fetch.ok r s)
          st).state = ⟨st.done_rounds ++ [r], ci⟩
      ∧ (follower_iter numStages sf1 sf2 maxRounds ci M (Fetch.ok r s)
          st).raised = none) := by
  refine ⟨?_, ?_, ?_, ?_⟩
  · intro h1
    simp [follower_iter, hnew, h1]
  · intro hs h1
    have hs' : (0 < s) = True := by simp [hs]
    refine ⟨?_, ?_, ?_, ?_⟩
    · rcases h2 : (train_stages numStages sf2 r 0 false false).result with _ | e2 <;>
        simp [follower_iter, hnew, h1, hs, h2]
    · rcases h2 : (train_stages numStages sf2 r 0 false false).result with _ | e2 <;>
        simp [follower_iter, hnew, h1, hs, h2]
    · intro h2
      constructor <;> simp [follower_iter, hnew, h1, hs, h2]
    · intro e2 h2
      constructor <;> simp [follower_iter, hnew, h1, hs, h2]
  · intro h1 hs
    subst hs
    simp [follower_iter, hnew, h1]
  · intro e he h1
    constructor <;>
      cases e <;> simp_all [follower_iter, hnew, h1]

/-- Witness for C1 (amended): the follower joins round 5 at stage 2,
the dataset function raises `DatasetGenerationError`, and the restart
from stage 0 succeeds: exactly one restart `(5, 0)` is made and round
5 is marked done with the backoff reset. -/
theorem follower_round_handling_witness :
    (follower_iter 3
        (fun _ s => if s = 2 then some PyExc.datasetGenerationError else none)
        (fun _ _ => none) 10 5 300 (Fetch.ok 5 2) ⟨[], 5⟩).restartCall =
      some (5, 0)
  ∧ (follower_iter 3
        (fun _ s => if s = 2 then some PyExc.datasetGenerationError else none)
        (fun _ _ => none) 10 5 300 (Fetch.ok 5 2) ⟨[], 5⟩).state =
      ⟨[5], 5⟩ := by
  have h := (follower_round_handling 3
    (fun _ s => if s = 2 then some PyExc.datasetGenerationError else none)
    (fun _ _ => none) 10 5 300 5 2 ⟨[], 5⟩ (by decide)).2.1
    (by decide) rfl
  exact ⟨h.2.1, (h.2.2.1 rfl).1⟩

/-- The follower state after one loop iteration at a fixed fetch. -/
def follower_step (numStages : Nat) (sf1 sf2 : Nat → Nat → Option PyExc)
    (maxRounds : Nat) (ci M : Rat) (fetch : Fetch)
    (st : FollowerState) : FollowerState :=
  (follower_iter numStages sf1 sf2 maxRounds ci M fetch st).state

/-- C6 (amended): starting from the initial backoff `check_interval`,
after `K` consecutive "already done" observations of the same round
pointer the follower's backoff interval — the one the next sleep will
use, and the one slept on the `(K+1)`-th such observation — equals
`min(check_interval * 2^K, max_check_interval)` (the `K`-th
observation itself sleeps the previous value and then doubles with the
cap, lines 444-445).  The interval is reset to `check_interval`
(line 437) whenever a new round's attempt completes or its failure is
handled — a successful attempt, any caught non-dataset exception, a
stage-0 dataset failure, or a dataset failure at stage > 0 whose
restart returns normally, i.e. exactly the cases where the round is
added to `done_rounds` — but NOT when the stage-0 restart itself
raises: then line 437 is skipped along with the `done_rounds` update,
the backoff is left unchanged, and the exception propagates out of the
loop (see the counterexample). -/
theorem follower_backoff (numStages : Nat) (sf1 sf2 : Nat → Nat → Option PyExc)
    (maxRounds : Nat) (ci M : Rat) (r s : Nat) (done0 : List Nat)
    (hdone : r ∈ done0) (hciM : ci ≤ M) (hM : 0 ≤ M) :
    (∀ K : Nat,
      ((follower_step numStages sf1 sf2 maxRounds ci M
          (Fetch.ok r s))^[K] ⟨done0, ci⟩).done_rounds = done0
      ∧ ((follower_step numStages sf1 sf2 maxRounds ci M
          (Fetch.ok r s))^[K] ⟨done0, ci⟩).check_backoff = min (ci * 2 ^ K) M
      ∧ (follower_iter numStages sf1 sf2 maxRounds ci M (Fetch.ok r s)
          ((follower_step numStages sf1 sf2 maxRounds ci M
            (Fetch.ok r s))^[K] ⟨done0, ci⟩)).sleep =
        some (min (ci * 2 ^ K) M))
  ∧ (∀ st : FollowerState, r ∉ st.done_rounds →
      ((train_stages numStages sf1 r s false false).result = none →
        (follower_iter numStages sf1 sf2 maxRounds ci M (Fetch.ok r s)
          st).state.check_backoff = ci)
      ∧ (∀ e, e ≠ PyExc.datasetGenerationError →
          (train_stages numStages sf1 r s false false).result = some e →
          (follower_iter numStages sf1 sf2 maxRounds ci M (Fetch.ok r s)
            st).state.check_backoff = ci)
      ∧ (s = 0 →
          (train_stages numStages sf1 r 0 false false).result =
            some PyExc.datasetGenerationError →
          (follower_iter numStages sf1 sf2 maxRounds ci M (Fetch.ok r s)
            st).state.check_backoff = ci)
      ∧ (0 < s →
          (train_stages numStages sf1 r s false false).result =
            some PyExc.datasetGenerationError →
          (train_stages numStages sf2 r 0 false false).result = none →
          (follower_iter numStages sf1 sf2 maxRounds ci M (Fetch.ok r s)
            st).state.check_backoff = ci)
      ∧ (0 < s →
          (train_stages numStages sf1 r s false false).result =
            some PyExc.datasetGenerationError →
          ∀ e2, (train_stages numStages sf2 r 0 false false).result = some e2 →
          (follower_iter numStages sf1 sf2 maxRounds ci M (Fetch.ok r s)
            st).state.check_backoff = st.check_backoff)) := by
  constructor
  · intro K
    induction K with
    | zero =>
      refine ⟨rfl, ?_, ?_⟩ <;>
        simp [follower_iter, hdone, min_eq_left hciM]
    | succ K ih =>
      obtain ⟨ihd, ihb, _⟩ := ih
      have hstep : (follower_step numStages sf1 sf2 maxRounds ci M
          (Fetch.ok r s))^[K + 1] ⟨done0, ci⟩ =
          ⟨done0, min (min (ci * 2 ^ K) M * 2) M⟩ := by
        rw [Function.iterate_succ_apply']
        rw [follower_step, follower_iter]
        simp only [ihd, hdone, if_pos, ihb]
      have halg : min (min (ci * 2 ^ K) M * 2) M = min (ci * 2 ^ (K + 1)) M := by
        rw [mul_comm (min (ci * 2 ^ K) M) 2,
          mul_min_of_nonneg _ _ (by norm_num : (0 : Rat) ≤ 2), min_assoc,
          min_eq_right (by linarith : M ≤ 2 * M)]
        congr 1
        ring
      refine ⟨?_, ?_, ?_⟩
      · rw [hstep]
      · rw [hstep, halg]
      · rw [hstep, halg]
        simp [follower_iter, hdone]
  · intro st hnotin
    refine ⟨?_, ?_, ?_, ?_, ?_⟩
    · intro hres
      simp [follower_iter, hnotin, hres]
    · intro e he hres
      cases e <;> simp_all [follower_iter, hnotin]
    · intro hs hres
      subst hs
      simp [follower_iter, hnotin, hres]
    · intro hs hres h2
      simp [follower_iter, hnotin, hres, hs, h2]
    · intro hs hres e2 h2
      simp [follower_iter, hnotin, hres, hs, h2]

/-- Witness for C6 (amended), at the source defaults
`check_interval = 5`, `max_check_interval = 300`: after 7 consecutive
already-done observations the backoff is `min(5 * 2^7, 300) = 300` —
the cap is in effect — and a successful attempt of a new round from a
backoff of 40 resets the interval to 5. -/
theorem follower_backoff_witness :
    ((follower_step 1 (fun _ _ => none) (fun _ _ => none) 10 5 300
        (Fetch.ok 0 0))^[7] ⟨[0], 5⟩).check_backoff = min (5 * 2 ^ 7) 300
  ∧ min ((5 : Rat) * 2 ^ 7) 300 = 300
  ∧ (follower_iter 1 (fun _ _ => none) (fun _ _ => none) 10 5 300
      (Fetch.ok 0 0) ⟨[], 40⟩).state.check_backoff = 5 :=
  ⟨((follower_backoff 1 (fun _ _ => none) (fun _ _ => none) 10 5 300 0 0 [0]
      (by simp) (by norm_num) (by norm_num)).1 7).2.1, by norm_num,
    ((follower_backoff 1 (fun _ _ => none) (fun _ _ => none) 10 5 300 0 0 [0]
      (by simp) (by norm_num) (by norm_num)).2 ⟨[], 40⟩ (by simp)).1 rfl⟩

/-- C6 counterexample: round 5 is new (`done_rounds` is empty) and the
current backoff is 40; the follower attempts it, the dataset function
raises `DatasetGenerationError` at stage 2, and the restart from
stage 0 raises too — line 437 is skipped, so the interval is NOT reset
to `check_interval = 5` even though a new round was attempted: it
stays 40 and the exception propagates. -/
theorem follower_backoff_reset_counterexample :
    (follower_iter 3 stageFailDGE stageFailDGE 10 5 300 (Fetch.ok 5 2)
        ⟨[], 40⟩).joinCall = some (5, 2)
  ∧ (follower_iter 3 stageFailDGE stageFailDGE 10 5 300 (Fetch.ok 5 2)
        ⟨[], 40⟩).state.check_backoff = 40
  ∧ (follower_iter 3 stageFailDGE stageFailDGE 10 5 300 (Fetch.ok 5 2)
        ⟨[], 40⟩).raised = some PyExc.datasetGenerationError
  ∧ (40 : Rat) ≠ 5 :=
  ⟨rfl, rfl, rfl, by norm_num⟩

/-! ## The coordinator loop: `coordinator_train` (lines 361-378)

Runs `train_stages(round_num, 0, is_coordinator=True)` for
`round_num = 0, 1, ...` while `round_num < max_rounds`, stopping at
the first raised exception (which would propagate out).  The
wall-clock timeout is not modelled: it only truncates the trace of
rounds, and the properties proved below are closed under taking
shorter traces (they are also stated for every `maxRounds`). -/

/-- The coordinator loop from round `r` with `k` rounds remaining. -/
def coordinatorRounds (numStages : Nat) (sf : Nat → Nat → Option PyExc) :
    Nat → Nat → List TrainStagesResult
  | 0, _ => []
  | k + 1, r =>
    let res := train_stages numStages sf r 0 true false
    match res.result with
    | some _ => [res]
    | none => res :: coordinatorRounds numStages sf k (r + 1)

/-- `coordinator_train`: rounds `0 .. max_rounds - 1`. -/
def coordinator_train (numStages : Nat) (sf : Nat → Nat → Option PyExc)
    (maxRounds : Nat) : List TrainStagesResult :=
  coordinatorRounds numStages sf maxRounds 0

/-- The `stage_num` values in a round/stage write trace, in order. -/
def rsStageValues (ws : List RSWrite) : List Nat :=
  ws.filterMap (fun w => match w with
    | RSWrite.stageW n => some n
    | RSWrite.roundW _ => none)

/-- The `round_num` values in a round/stage write trace, in order. -/
def rsRoundValues (ws : List RSWrite) : List Nat :=
  ws.filterMap (fun w => match w with
    | RSWrite.roundW n => some n
    | RSWrite.stageW _ => none)

/-- The `round_num` write values over a whole coordinator run. -/
def coordinatorRoundTrace (numStages : Nat) (sf : Nat → Nat → Option PyExc)
    (k r : Nat) : List Nat :=
  rsRoundValues (((coordinatorRounds numStages sf k r).map
    (fun t => t.rsWrites)).flatten)

theorem stageLoop_rsWrites (sf : Nat → Nat → Option PyExc) (round : Nat)
    (c : Bool) : ∀ l, (stageLoop sf round c l).rsWrites =
      (stageLoop sf round c l).stagesStarted.map RSWrite.stageW := by
  intro l
  induction l with
  | nil => rfl
  | cons s rest ih =>
    rcases h : sf round s with _ | e <;> simp [stageLoop, h, ih]

theorem stageLoop_range_bounds (sf : Nat → Nat → Option PyExc) (round : Nat)
    (c : Bool) : ∀ n start,
      List.Chain' (· ≤ ·)
        ((stageLoop sf round c (List.range' start n)).stagesStarted)
      ∧ ∀ x ∈ (stageLoop sf round c (List.range' start n)).stagesStarted,
          start ≤ x := by
  intro n
  induction n with
  | zero => intro start; exact ⟨List.chain'_nil, by simp [List.range', stageLoop]⟩
  | succ n ih =>
    intro start
    rw [List.range'_succ]
    rcases h : sf round start with _ | e
    · obtain ⟨ihc, ihb⟩ := ih (start + 1)
      refine ⟨?_, ?_⟩
      · simp only [stageLoop, h]
        rw [List.chain'_cons']
        refine ⟨?_, ihc⟩
        intro b hb
        have hmem := List.mem_of_mem_head? hb
        have := ihb b hmem
        omega
      · intro x hx
        simp only [stageLoop, h, List.mem_cons] at hx
        rcases hx with hx | hx
        · omega
        · have := ihb x hx
          omega
    · constructor
      · simp [stageLoop, h]
      · intro x hx
        simp only [stageLoop, h, List.mem_singleton] at hx
        omega

theorem train_stages_stagesStarted (numStages : Nat)
    (sf : Nat → Nat → Option PyExc) (round start : Nat) (c p : Bool) :
    (train_stages numStages sf round start c p).stagesStarted =
      (stageLoop sf round c (List.range' start (numStages - start))).stagesStarted := by
  unfold train_stages
  rcases h : (stageLoop sf round c (List.range' start (numStages - start))).result
      with _ | e <;>
    by_cases hb : start < numStages <;> simp [h, hb]

theorem train_stages_rsWrites (numStages : Nat)
    (sf : Nat → Nat → Option PyExc) (round start : Nat) (c p : Bool) :
    (train_stages numStages sf round start c p).rsWrites =
      RSWrite.roundW round ::
        (train_stages numStages sf round start c p).stagesStarted.map
          RSWrite.stageW := by
  rw [train_stages_stagesStarted, ← stageLoop_rsWrites]
  unfold train_stages
  rcases h : (stageLoop sf round c (List.range' start (numStages - start))).result
      with _ | e <;>
    by_cases hb : start < numStages <;> simp [h, hb]

theorem rsRoundValues_train_stages (numStages : Nat)
    (sf : Nat → Nat → Option PyExc) (round start : Nat) (c p : Bool) :
    rsRoundValues (train_stages numStages sf round start c p).rsWrites =
      [round] := by
  rw [train_stages_rsWrites]
  simp [rsRoundValues, List.filterMap_map, Function.comp]

theorem coordinatorRoundTrace_bounds (numStages : Nat)
    (sf : Nat → Nat → Option PyExc) : ∀ k r,
      List.Chain' (· ≤ ·) (coordinatorRoundTrace numStages sf k r)
      ∧ ∀ x ∈ coordinatorRoundTrace numStages sf k r, r ≤ x := by
  intro k
  induction k with
  | zero =>
    intro r
    exact ⟨List.chain'_nil, by simp [coordinatorRoundTrace, coordinatorRounds,
      rsRoundValues]⟩
  | succ k ih =>
    intro r
    rcases h : (train_stages numStages sf r 0 true false).result with _ | e
    · obtain ⟨ihc, ihb⟩ := ih (r + 1)
      have htr : coordinatorRoundTrace numStages sf (k + 1) r =
          r :: coordinatorRoundTrace numStages sf k (r + 1) := by
        simp only [coordinatorRoundTrace, coordinatorRounds, h, List.map_cons,
          List.flatten_cons]
        rw [rsRoundValues, List.filterMap_append]
        rw [show List.filterMap _ (train_stages numStages sf r 0 true false).rsWrites =
          rsRoundValues (train_stages numStages sf r 0 true false).rsWrites from rfl]
        rw [rsRoundValues_train_stages]
        rfl
      rw [htr]
      refine ⟨?_, ?_⟩
      · rw [List.chain'_cons']
        refine ⟨?_, ihc⟩
        intro b hb
        have := ihb b (List.mem_of_mem_head? hb)
        omega
      · intro x hx
        rcases List.mem_cons.mp hx with hx | hx
        · omega
        · have := ihb x hx
          omega
    · have htr : coordinatorRoundTrace numStages sf (k + 1) r =
          rsRoundValues (train_stages numStages sf r 0 true false).rsWrites := by
        simp [coordinatorRoundTrace, coordinatorRounds, h]
      rw [htr, rsRoundValues_train_stages]
      exact ⟨List.chain'_singleton r, by simp⟩

/-- C5 (amended): `round_num` and `stage_num` are written only by
`train_stages` (driven by the two orchestrator loops) — the
Publisher's `compute_loss` never changes them; each `train_stages`
call writes `round_num` once and then `stage_num` values that are
non-decreasing within the call; and across the coordinator loop the
`round_num` writes are non-decreasing.  But each new `train_stages`
call (new round, or follower restart) resets `stage_num` to its start
stage, so `stage_num` is NOT monotonically non-decreasing over time —
see the counterexample. -/
theorem round_stage_writes (md5hex : String → String) :
    (∀ (node : HivemindNode) (sr : Int) (step : Nat)
        (cr : Option (List (String × Int))),
      (compute_loss md5hex node sr step cr).node.round_num = node.round_num
      ∧ (compute_loss md5hex node sr step cr).node.stage_num = node.stage_num)
  ∧ (∀ (numStages : Nat) (sf : Nat → Nat → Option PyExc) (round start : Nat)
        (c p : Bool),
      (train_stages numStages sf round start c p).rsWrites =
        RSWrite.roundW round ::
          (train_stages numStages sf round start c p).stagesStarted.map
            RSWrite.stageW
      ∧ List.Chain' (· ≤ ·)
          (train_stages numStages sf round start c p).stagesStarted)
  ∧ (∀ (numStages : Nat) (sf : Nat → Nat → Option PyExc) (maxRounds : Nat),
      List.Chain' (· ≤ ·) (coordinatorRoundTrace numStages sf maxRounds 0)) := by
  refine ⟨?_, ?_, ?_⟩
  · intro node sr step cr
    have hf := publishOutputsRewards_fields md5hex node sr step
    constructor <;>
      · unfold compute_loss
        by_cases hc : node.is_coordinator <;> simp [hc, hf.2.1, hf.2.2]
  · intro numStages sf round start c p
    refine ⟨train_stages_rsWrites numStages sf round start c p, ?_⟩
    rw [train_stages_stagesStarted]
    exact (stageLoop_range_bounds sf round c (numStages - start) start).1
  · intro numStages sf maxRounds
    exact (coordinatorRoundTrace_bounds numStages sf maxRounds 0).1

/-- C5 counterexample: a plain coordinator run with two stages and two
rounds writes the `stage_num` sequence `0, 1, 0, 1` — the value drops
back to `0` when round 1 starts, so `stage_num` is not monotonically
non-decreasing over time. -/
theorem round_stage_monotone_counterexample :
    rsStageValues (((coordinator_train 2 (fun _ _ => none) 2).map
        (fun t => t.rsWrites)).flatten) = [0, 1, 0, 1]
  ∧ ¬ List.Chain' (· ≤ ·) [0, 1, 0, 1] :=
  ⟨rfl, by simp [List.chain'_cons]⟩
